import Mathlib

/-!
Shallow embedding of the resumable batch evaluation pipeline of the
gmp-demo-ai repository.

The orchestrator is the environment-aware BatchEvaluationProcessor
(src/unnamed/part_004): startBatchProcessing / processCurrentBatch /
getCurrentBatch / hasMoreBatches / evaluateUser.  The persistence layer is
src/src/lib/databaseService.js (checkEvaluationExists,
saveEvaluationResults, saveEvaluationError, updateEvaluationResults); the
environment-specific copies selected by getDatabaseService
(gmpDatabaseService and siblings) are absent from the sources, so the one
operation whose behaviour is not pinned down by in-source code
(updateEvaluationResults as called with an email) is modelled from the
spec and marked as such below.

React component state (evaluationResults, currentBatchIndex, sessionId,
completedUsers) is threaded as an explicit SessionState value, as the
spec's design notes prescribe for the ambient mutable state; external
calls (Gemini, Supabase) are an Env of response/fault functions.
-/

namespace GmpDemo

/-- Event types written to the process_logs audit sink by the orchestrator
(log_type strings in part_004); ON_COMPLETE_CALLBACK marks the invocation
of the caller's onComplete callback. -/
inductive EventType where
  | SESSION_START
  | BATCH_START
  | USER_PROCESSING_START
  | DUPLICATE_CHECK_ERROR
  | USER_SKIPPED
  | USER_UPDATE_START
  | USER_SUCCESS
  | USER_UPDATED
  | USER_ERROR
  | BATCH_COMPLETE
  | SESSION_COMPLETE
  | ON_COMPLETE_CALLBACK
deriving DecidableEq

/-- One audit event (the fields of a logProcessEvent call that the claims
refer to: log_type, email, total_score, db_save_successful,
error_message). -/
structure Event where
  etype : EventType
  email : Option String := none
  score : Option Int := none
  dbOk : Option Bool := none
  errMsg : Option String := none
deriving DecidableEq

/-- A row of the evaluation_results table (the OutcomeRecord): id,
email, total_score, evaluation_status, error_message, processed_at.
Timestamps are modelled by a monotone counter. -/
structure EvalRec where
  id : Nat
  email : String
  score : Int
  status : String
  errMsg : Option String
  processedAt : Nat
deriving DecidableEq

/-- One entry of the evaluationResults list the component shows to the
caller (email, totalScore, status, error, savedToDatabase, dbError). -/
structure UserResult where
  email : String
  totalScore : Int
  status : String
  error : Option String := none
  savedToDatabase : Bool
  dbError : Option String := none
deriving DecidableEq

/-- A work item: the fields of a fetched user row that the orchestration
logic itself inspects (the submission payload is only forwarded to the
evaluator prompt). -/
structure User where
  email : String
deriving DecidableEq

/-- Return shape of checkEvaluationExists
(src/src/lib/databaseService.js): exists flag, most recent record,
lookup error, isSuccess, needsUpdate. -/
structure CheckResult where
  found : Bool
  data : Option EvalRec
  error : Option String
  isSuccess : Bool
  needsUpdate : Bool

/-- The external world: the Gemini credential and scoring call, and fault
injections for the Supabase operations (none means the call succeeds,
some m means it fails with message m). -/
structure Env where
  apiKey : Option String
  geminiEval : String → Except String Int
  checkFail : String → Option String
  insertFail : String → Option String
  updateFail : String → Option String
  insertErrorFail : String → Option String

/-- The session's threaded state: the evaluation_results store, a
monotone counter for ids and timestamps, the evaluationResults list, the
audit event log, the LocalStorage completed_users cache, and the emails
the Evaluator was invoked on. -/
structure SessionState where
  store : List EvalRec
  counter : Nat
  results : List UserResult
  events : List Event
  localCache : List (String × Int)
  evalCalls : List String
deriving DecidableEq

/-- Append an audit event (logProcessEvent). -/
def pushEvent (st : SessionState) (e : Event) : SessionState :=
  { st with events := st.events ++ [e] }

/-- Append a user result (setEvaluationResults prev ++ [userResult]). -/
def pushResult (st : SessionState) (r : UserResult) : SessionState :=
  { st with results := st.results ++ [r] }

/-- Most recent record for an identity: the row with the greatest
processed_at, as selected by the order-by-processed_at-desc limit-1 query
of checkEvaluationExists. -/
def mostRecent (store : List EvalRec) (email : String) : Option EvalRec :=
  store.foldl
    (fun acc r =>
      if r.email = email then
        match acc with
        | none => some r
        | some b => if b.processedAt ≤ r.processedAt then some r else some b
      else acc)
    none

/-- checkEvaluationExists (src/src/lib/databaseService.js:972): look up
the most recent evaluation_results row for the email; on a lookup error
report exists=false with the error; isSuccess iff the record's status is
success, needsUpdate iff it exists and is not success. -/
def checkEvaluationExists (env : Env) (store : List EvalRec) (email : String) : CheckResult :=
  match env.checkFail email with
  | some m => ⟨false, none, some m, false, false⟩
  | none =>
    match mostRecent store email with
    | none => ⟨false, none, none, false, false⟩
    | some r => ⟨true, some r, none, r.status = "success", !(r.status = "success" : Bool)⟩

/-- saveEvaluationResults (src/src/lib/databaseService.js:257): insert a
new evaluation_results row with status success. -/
def saveEvaluationResults (store : List EvalRec) (email : String) (score : Int) (now : Nat) :
    List EvalRec :=
  store ++ [⟨now, email, score, "success", none, now⟩]

/-- saveEvaluationError (src/src/lib/databaseService.js:343): insert a
new evaluation_results row with status error, total_score 0 and the
failure message. -/
def saveEvaluationError (store : List EvalRec) (email : String) (msg : String) (now : Nat) :
    List EvalRec :=
  store ++ [⟨now, email, 0, "error", some msg, now⟩]

/-- Modelled from the spec: the environment-specific database service's
updateEvaluationResults (gmpDatabaseService and its siblings, selected by
getDatabaseService, are absent from the sources; the in-source selector
passes the identity's email).  Per the spec, the identity's existing
OutcomeRecord is replaced by update-in-place by record id rather than a
new row: the most recent record of the identity keeps its id and receives
the new score, status success, a cleared error_message and a fresh
processed_at. -/
def updateEvaluationResults (store : List EvalRec) (email : String) (score : Int) (now : Nat) :
    List EvalRec :=
  match mostRecent store email with
  | none => store
  | some r =>
    store.map (fun x =>
      if x.id = r.id then
        { x with score := score, status := "success", errMsg := none, processedAt := now }
      else x)

/-- The error message evaluateUser throws when the Gemini credential is
absent (src/unnamed/part_004:80). -/
def missingKeyMsg : String := "Please set VITE_GEMINI_API_KEY in your .env.local file"

/-- evaluateUser (src/unnamed/part_004:76): throw if the credential is
missing, otherwise call Gemini and return the parsed totalScore, or the
thrown/parse failure. -/
def evaluateUser (env : Env) (u : User) : Except String Int :=
  match env.apiKey with
  | none => .error missingKeyMsg
  | some _ => env.geminiEval u.email

/-- The evaluate-and-persist tail of the per-item loop
(src/unnamed/part_004:414-618): record the Evaluator invocation, then on
success cache locally and insert or update (by the needs-update flag of
the earlier dedup check), flagging the persistence outcome separately; on
Evaluator failure persist an error row, and in both cases emit the
outcome event and append the user result. -/
def evalAndPersist (env : Env) (st : SessionState) (u : User) (chk : CheckResult) :
    SessionState :=
  let st1 := { st with evalCalls := st.evalCalls ++ [u.email] }
  match evaluateUser env u with
  | .error m =>
    match env.insertErrorFail u.email with
    | some dm =>
      let st2 := pushEvent st1
        { etype := .USER_ERROR, email := some u.email, score := some 0,
          dbOk := some false, errMsg := some m }
      pushResult st2
        { email := u.email, totalScore := 0, status := "error", error := some m,
          savedToDatabase := false, dbError := some dm }
    | none =>
      let store2 := saveEvaluationError st1.store u.email m st1.counter
      let st2 := { st1 with store := store2, counter := st1.counter + 1 }
      let st3 := pushEvent st2
        { etype := .USER_ERROR, email := some u.email, score := some 0,
          dbOk := some true, errMsg := some m }
      pushResult st3
        { email := u.email, totalScore := 0, status := "error", error := some m,
          savedToDatabase := true, dbError := none }
  | .ok sc =>
    let st2 := { st1 with localCache := st1.localCache ++ [(u.email, sc)] }
    let isUpdate := chk.found && chk.needsUpdate
    if isUpdate then
      match env.updateFail u.email with
      | some dm =>
        let st3 := pushEvent st2
          { etype := .USER_UPDATED, email := some u.email, score := some sc,
            dbOk := some false }
        pushResult st3
          { email := u.email, totalScore := sc, status := "updated",
            savedToDatabase := false, dbError := some dm }
      | none =>
        let store3 := updateEvaluationResults st2.store u.email sc st2.counter
        let st3 := { st2 with store := store3, counter := st2.counter + 1 }
        let st4 := pushEvent st3
          { etype := .USER_UPDATED, email := some u.email, score := some sc,
            dbOk := some true }
        pushResult st4
          { email := u.email, totalScore := sc, status := "updated",
            savedToDatabase := true, dbError := none }
    else
      match env.insertFail u.email with
      | some dm =>
        let st3 := pushEvent st2
          { etype := .USER_SUCCESS, email := some u.email, score := some sc,
            dbOk := some false }
        pushResult st3
          { email := u.email, totalScore := sc, status := "success",
            savedToDatabase := false, dbError := some dm }
      | none =>
        let store3 := saveEvaluationResults st2.store u.email sc st2.counter
        let st3 := { st2 with store := store3, counter := st2.counter + 1 }
        let st4 := pushEvent st3
          { etype := .USER_SUCCESS, email := some u.email, score := some sc,
            dbOk := some true }
        pushResult st4
          { email := u.email, totalScore := sc, status := "success",
            savedToDatabase := true, dbError := none }

/-- One iteration of the per-item loop (src/unnamed/part_004:286-618):
emit USER_PROCESSING_START, re-check the dedup index; on a lookup error
warn and proceed optimistically; on an authoritative success skip with
the stored score and no Evaluator call; on a non-success record emit
USER_UPDATE_START and re-evaluate; otherwise evaluate as a fresh
identity. -/
def processUser (env : Env) (st : SessionState) (u : User) : SessionState :=
  let st1 := pushEvent st { etype := .USER_PROCESSING_START, email := some u.email }
  let chk := checkEvaluationExists env st1.store u.email
  match chk.error with
  | some cerr =>
    let st2 := pushEvent st1
      { etype := .DUPLICATE_CHECK_ERROR, email := some u.email, errMsg := some cerr }
    evalAndPersist env st2 u chk
  | none =>
    match chk.data with
    | some r =>
      if r.status = "success" then
        let st2 := pushEvent st1
          { etype := .USER_SKIPPED, email := some u.email, score := some r.score }
        pushResult st2
          { email := u.email, totalScore := r.score, status := "skipped",
            savedToDatabase := true }
      else
        let st2 := pushEvent st1 { etype := .USER_UPDATE_START, email := some u.email }
        evalAndPersist env st2 u chk
    | none => evalAndPersist env st1 u chk

/-- The sequential for-loop over the current batch. -/
def processItems (env : Env) (st : SessionState) (items : List User) : SessionState :=
  items.foldl (fun s u => processUser env s u) st

/-- BATCH_SIZE constant of the processor (src/unnamed/part_004:20). -/
def BATCH_SIZE : Nat := 20

/-- getCurrentBatch (src/unnamed/part_004:236): the slice of users from
idx*BATCH_SIZE of length at most BATCH_SIZE. -/
def getCurrentBatch (users : List User) (idx : Nat) : List User :=
  (users.drop (idx * BATCH_SIZE)).take BATCH_SIZE

/-- hasMoreBatches (src/unnamed/part_004:242). -/
def hasMoreBatches (users : List User) (idx : Nat) : Bool :=
  (idx + 1) * BATCH_SIZE < users.length

/-- Math.ceil(users.length / BATCH_SIZE). -/
def numBatches (users : List User) : Nat :=
  (users.length + (BATCH_SIZE - 1)) / BATCH_SIZE

/-- processCurrentBatch (src/unnamed/part_004:246-750): return early on
an empty user list; otherwise emit BATCH_START, run the per-item loop on
the current batch, emit BATCH_COMPLETE, and either advance the batch
index and recurse, or emit SESSION_COMPLETE and invoke the caller's
onComplete callback. -/
def processCurrentBatch (env : Env) (users : List User) (idx : Nat) (st : SessionState) :
    SessionState :=
  if users.length = 0 then st
  else
    let st1 := pushEvent st { etype := .BATCH_START }
    let st2 := processItems env st1 (getCurrentBatch users idx)
    let st3 := pushEvent st2 { etype := .BATCH_COMPLETE }
    if h : hasMoreBatches users idx then
      processCurrentBatch env users (idx + 1) st3
    else
      pushEvent (pushEvent st3 { etype := .SESSION_COMPLETE })
        { etype := .ON_COMPLETE_CALLBACK }
termination_by users.length - idx * BATCH_SIZE
decreasing_by
  simp only [hasMoreBatches, BATCH_SIZE, decide_eq_true_eq] at h
  simp only [BATCH_SIZE]
  omega

/-- startBatchProcessing (src/unnamed/part_004:752): emit SESSION_START,
reset the session's results, and process from the first batch.  The
evaluation_results store and the timestamp counter persist across
sessions, so they are inputs. -/
def startBatchProcessing (env : Env) (users : List User) (store0 : List EvalRec)
    (c0 : Nat) : SessionState :=
  let st0 : SessionState :=
    { store := store0, counter := c0, results := [], events := [], localCache := [],
      evalCalls := [] }
  let st1 := pushEvent st0 { etype := .SESSION_START }
  processCurrentBatch env users 0 st1

/-- Sum of the per-category stage scores, as computed in validateAnswers
(src/unnamed/part_002:338): Object.values(stageScores).reduce of
stage.score ∥ 0. -/
def sumScores (stageScores : List Int) : Int :=
  stageScores.foldl (fun s x => s + x) 0

/-- The totalScore reconciliation of validateAnswers
(src/unnamed/part_002:336-352): when the reported aggregate differs from
the calculated category sum by more than 5, replace it by the sum capped
at 100; in all cases cap the kept value at 70. -/
def reconciledTotalScore (reported : Int) (stageScores : List Int) : Int :=
  let calculatedTotal := sumScores stageScores
  let t := if (reported - calculatedTotal).natAbs > 5 then min calculatedTotal 100 else reported
  min t 70

/-- Number of events of a given type in a trace. -/
def countType (es : List Event) (t : EventType) : Nat :=
  es.countP (fun e => decide (e.etype = t))

/-- Number of results carrying a given status. -/
def countStatus (rs : List UserResult) (s : String) : Nat :=
  rs.countP (fun r => decide (r.status = s))

/-- Event types that the per-item loop may emit (everything except the
session- and batch-level markers). -/
def itemEvent (t : EventType) : Prop :=
  t = .USER_PROCESSING_START ∨ t = .DUPLICATE_CHECK_ERROR ∨ t = .USER_SKIPPED ∨
    t = .USER_UPDATE_START ∨ t = .USER_SUCCESS ∨ t = .USER_UPDATED ∨ t = .USER_ERROR

/-- The four result statuses the per-item loop can record, together with
the consequence of a missing credential: a non-skipped item then carries
the credential error message. -/
def goodResult (env : Env) (r : UserResult) : Prop :=
  (r.status = "skipped" ∨ r.status = "success" ∨ r.status = "updated" ∨ r.status = "error") ∧
    (env.apiKey = none → r.status = "skipped" ∨
      (r.status = "error" ∧ r.error = some missingKeyMsg))

@[simp] lemma pushEvent_results (st : SessionState) (e : Event) :
    (pushEvent st e).results = st.results := rfl

@[simp] lemma pushEvent_events (st : SessionState) (e : Event) :
    (pushEvent st e).events = st.events ++ [e] := rfl

@[simp] lemma pushEvent_store (st : SessionState) (e : Event) :
    (pushEvent st e).store = st.store := rfl

@[simp] lemma pushEvent_counter (st : SessionState) (e : Event) :
    (pushEvent st e).counter = st.counter := rfl

@[simp] lemma pushEvent_evalCalls (st : SessionState) (e : Event) :
    (pushEvent st e).evalCalls = st.evalCalls := rfl

@[simp] lemma pushResult_results (st : SessionState) (r : UserResult) :
    (pushResult st r).results = st.results ++ [r] := rfl

@[simp] lemma pushResult_events (st : SessionState) (r : UserResult) :
    (pushResult st r).events = st.events := rfl

@[simp] lemma pushResult_store (st : SessionState) (r : UserResult) :
    (pushResult st r).store = st.store := rfl

@[simp] lemma pushResult_evalCalls (st : SessionState) (r : UserResult) :
    (pushResult st r).evalCalls = st.evalCalls := rfl

lemma evalAndPersist_spec (env : Env) (st : SessionState) (u : User) (chk : CheckResult) :
    ∃ res es,
      (evalAndPersist env st u chk).results = st.results ++ [res] ∧
      (evalAndPersist env st u chk).events = st.events ++ es ∧
      res.email = u.email ∧ goodResult env res ∧ res.status ≠ "skipped" ∧
      ∀ e ∈ es, itemEvent e.etype := by
  have herrmsg : ∀ m, evaluateUser env u = .error m → env.apiKey = none →
      (some m : Option String) = some missingKeyMsg := by
    intro m he hk
    simp only [evaluateUser, hk] at he
    exact congrArg some (Except.error.inj he).symm
  unfold evalAndPersist
  rcases he : evaluateUser env u with m | sc
  · rcases hie : env.insertErrorFail u.email with _ | dm
    · exact
        ⟨{ email := u.email, totalScore := 0, status := "error", error := some m,
           savedToDatabase := true, dbError := none },
         [{ etype := .USER_ERROR, email := some u.email, score := some 0,
            dbOk := some true, errMsg := some m }],
         by simp, by simp, rfl,
         ⟨Or.inr (Or.inr (Or.inr rfl)), fun hk => Or.inr ⟨rfl, herrmsg m he hk⟩⟩,
         by simp, by simp [itemEvent]⟩
    · exact
        ⟨{ email := u.email, totalScore := 0, status := "error", error := some m,
           savedToDatabase := false, dbError := some dm },
         [{ etype := .USER_ERROR, email := some u.email, score := some 0,
            dbOk := some false, errMsg := some m }],
         by simp, by simp, rfl,
         ⟨Or.inr (Or.inr (Or.inr rfl)), fun hk => Or.inr ⟨rfl, herrmsg m he hk⟩⟩,
         by simp, by simp [itemEvent]⟩
  · have hsome : env.apiKey ≠ none := by
      intro hk; simp [evaluateUser, hk] at he
    by_cases hu : (chk.found && chk.needsUpdate) = true
    · simp only [hu, if_true]
      rcases huf : env.updateFail u.email with _ | dm
      · exact
          ⟨{ email := u.email, totalScore := sc, status := "updated",
             savedToDatabase := true, dbError := none },
           [{ etype := .USER_UPDATED, email := some u.email, score := some sc,
              dbOk := some true }],
           by simp, by simp, rfl,
           ⟨Or.inr (Or.inr (Or.inl rfl)), fun hk => absurd hk hsome⟩,
           by simp, by simp [itemEvent]⟩
      · exact
          ⟨{ email := u.email, totalScore := sc, status := "updated",
             savedToDatabase := false, dbError := some dm },
           [{ etype := .USER_UPDATED, email := some u.email, score := some sc,
              dbOk := some false }],
           by simp, by simp, rfl,
           ⟨Or.inr (Or.inr (Or.inl rfl)), fun hk => absurd hk hsome⟩,
           by simp, by simp [itemEvent]⟩
    · simp only [Bool.not_eq_true] at hu
      simp only [hu, Bool.false_eq_true, if_false]
      rcases hif : env.insertFail u.email with _ | dm
      · exact
          ⟨{ email := u.email, totalScore := sc, status := "success",
             savedToDatabase := true, dbError := none },
           [{ etype := .USER_SUCCESS, email := some u.email, score := some sc,
              dbOk := some true }],
           by simp, by simp, rfl,
           ⟨Or.inr (Or.inl rfl), fun hk => absurd hk hsome⟩,
           by simp, by simp [itemEvent]⟩
      · exact
          ⟨{ email := u.email, totalScore := sc, status := "success",
             savedToDatabase := false, dbError := some dm },
           [{ etype := .USER_SUCCESS, email := some u.email, score := some sc,
              dbOk := some false }],
           by simp, by simp, rfl,
           ⟨Or.inr (Or.inl rfl), fun hk => absurd hk hsome⟩,
           by simp, by simp [itemEvent]⟩

lemma processUser_spec (env : Env) (st : SessionState) (u : User) :
    ∃ res es,
      (processUser env st u).results = st.results ++ [res] ∧
      (processUser env st u).events = st.events ++ es ∧
      res.email = u.email ∧ goodResult env res ∧
      ∀ e ∈ es, itemEvent e.etype := by
  unfold processUser
  simp only [pushEvent_store]
  rcases hc : (checkEvaluationExists env st.store u.email).error with _ | cerr
  case some =>
    obtain ⟨res, es, h1, h2, h3, h4, _, h6⟩ := evalAndPersist_spec env
      (pushEvent (pushEvent st { etype := .USER_PROCESSING_START, email := some u.email })
        { etype := .DUPLICATE_CHECK_ERROR, email := some u.email, errMsg := some cerr }) u
      (checkEvaluationExists env st.store u.email)
    exact ⟨res,
      [{ etype := .USER_PROCESSING_START, email := some u.email },
       { etype := .DUPLICATE_CHECK_ERROR, email := some u.email, errMsg := some cerr }] ++ es,
      by simpa using h1, by simpa using h2, h3, h4,
      List.forall_mem_append.mpr ⟨by simp [itemEvent], h6⟩⟩
  case none =>
    rcases hd : (checkEvaluationExists env st.store u.email).data with _ | r
    case none =>
      obtain ⟨res, es, h1, h2, h3, h4, _, h6⟩ := evalAndPersist_spec env
        (pushEvent st { etype := .USER_PROCESSING_START, email := some u.email }) u
        (checkEvaluationExists env st.store u.email)
      exact ⟨res, [{ etype := .USER_PROCESSING_START, email := some u.email }] ++ es,
        by simpa using h1, by simpa using h2, h3, h4,
        List.forall_mem_append.mpr ⟨by simp [itemEvent], h6⟩⟩
    case some =>
      by_cases hs : r.status = "success"
      · exact ⟨{ email := u.email, totalScore := r.score, status := "skipped",
                 savedToDatabase := true },
          [{ etype := .USER_PROCESSING_START, email := some u.email },
           { etype := .USER_SKIPPED, email := some u.email, score := some r.score }],
          by simp [hs], by simp [hs], rfl, ⟨Or.inl rfl, fun _ => Or.inl rfl⟩,
          by simp [itemEvent]⟩
      · obtain ⟨res, es, h1, h2, h3, h4, _, h6⟩ := evalAndPersist_spec env
          (pushEvent (pushEvent st { etype := .USER_PROCESSING_START, email := some u.email })
            { etype := .USER_UPDATE_START, email := some u.email }) u
          (checkEvaluationExists env st.store u.email)
        exact ⟨res,
          [{ etype := .USER_PROCESSING_START, email := some u.email },
           { etype := .USER_UPDATE_START, email := some u.email }] ++ es,
          by simpa [hs] using h1, by simpa [hs] using h2, h3, h4,
          List.forall_mem_append.mpr ⟨by simp [itemEvent], h6⟩⟩

lemma processItems_cons (env : Env) (st : SessionState) (u : User) (rest : List User) :
    processItems env st (u :: rest) = processItems env (processUser env st u) rest := rfl

lemma processItems_spec (env : Env) : ∀ (items : List User) (st : SessionState),
    ∃ rs es,
      (processItems env st items).results = st.results ++ rs ∧
      (processItems env st items).events = st.events ++ es ∧
      rs.map (fun r => r.email) = items.map (fun u => u.email) ∧
      (∀ r ∈ rs, goodResult env r) ∧
      ∀ e ∈ es, itemEvent e.etype := by
  intro items
  induction items with
  | nil =>
    intro st
    exact ⟨[], [], by simp [processItems], by simp [processItems], rfl, by simp, by simp⟩
  | cons u rest ih =>
    intro st
    obtain ⟨res, es, h1, h2, h3, h4, h5⟩ := processUser_spec env st u
    obtain ⟨rs, es2, g1, g2, g3, g4, g5⟩ := ih (processUser env st u)
    refine ⟨res :: rs, es ++ es2, ?_, ?_, ?_, ?_, ?_⟩
    · rw [processItems_cons, g1, h1]; simp
    · rw [processItems_cons, g2, h2]; simp
    · simp [h3, g3]
    · intro r hr
      simp only [List.mem_cons] at hr
      rcases hr with rfl | hr
      · exact h4
      · exact g4 r hr
    · exact List.forall_mem_append.mpr ⟨h5, g5⟩

lemma itemEvent_ne (t : EventType) (h : itemEvent t) :
    t ≠ .SESSION_COMPLETE ∧ t ≠ .ON_COMPLETE_CALLBACK ∧ t ≠ .BATCH_COMPLETE ∧
      t ≠ .SESSION_START ∧ t ≠ .BATCH_START := by
  rcases h with h | h | h | h | h | h | h
  all_goals subst h; exact ⟨by simp, by simp, by simp, by simp, by simp⟩

lemma countType_of_itemEvents (es : List Event) (h : ∀ e ∈ es, itemEvent e.etype)
    (t : EventType) (ht : ¬ itemEvent t) : countType es t = 0 := by
  rw [countType, List.countP_eq_zero]
  intro e he
  simp only [decide_eq_true_eq]
  intro hc
  exact ht (hc ▸ h e he)

lemma countStatus_partition : ∀ rs : List UserResult,
    (∀ r ∈ rs,
      r.status = "skipped" ∨ r.status = "success" ∨ r.status = "updated" ∨ r.status = "error") →
    countStatus rs "success" + countStatus rs "updated" + countStatus rs "skipped" +
      countStatus rs "error" = rs.length := by
  intro rs
  induction rs with
  | nil => intro _; simp [countStatus]
  | cons r rest ih =>
    intro h
    have hr := h r (by simp)
    have ht := ih (fun x hx => h x (by simp [hx]))
    rcases hr with h1 | h1 | h1 | h1
    all_goals
      simp [countStatus, List.countP_cons, h1] at ht ⊢
      omega

lemma processCurrentBatch_results (env : Env) (users : List User) :
    ∀ (n idx : Nat) (st : SessionState), users.length - idx * BATCH_SIZE ≤ n →
    ∃ rs,
      (processCurrentBatch env users idx st).results = st.results ++ rs ∧
      rs.map (fun r => r.email) = (users.drop (idx * BATCH_SIZE)).map (fun u => u.email) ∧
      ∀ r ∈ rs, goodResult env r := by
  intro n
  induction n using Nat.strong_induction_on with
  | _ n ih =>
    intro idx st hn
    rw [processCurrentBatch]
    by_cases h0 : users.length = 0
    · simp only [h0, if_true]
      have hnil : users.drop (idx * BATCH_SIZE) = [] :=
        List.drop_eq_nil_of_le (by omega)
      exact ⟨[], by simp, by simp [hnil], by simp⟩
    · simp only [h0, if_false]
      obtain ⟨rs1, es1, p1, p2, p3, p4, p5⟩ :=
        processItems_spec env (getCurrentBatch users idx)
          (pushEvent st { etype := .BATCH_START })
      by_cases hm : hasMoreBatches users idx = true
      · rw [dif_pos hm]
        have hm' : (idx + 1) * BATCH_SIZE < users.length := by
          simpa [hasMoreBatches] using hm
        have hlt : users.length - (idx + 1) * BATCH_SIZE < n := by
          simp only [BATCH_SIZE] at hm' hn ⊢
          omega
        obtain ⟨rs2, q1, q2, q3⟩ := ih (users.length - (idx + 1) * BATCH_SIZE) hlt (idx + 1)
          (pushEvent (processItems env (pushEvent st { etype := .BATCH_START })
            (getCurrentBatch users idx)) { etype := .BATCH_COMPLETE }) le_rfl
        refine ⟨rs1 ++ rs2, ?_, ?_, ?_⟩
        · rw [q1]; simp [p1]
        · have hsplit : users.drop (idx * BATCH_SIZE) =
              getCurrentBatch users idx ++ users.drop ((idx + 1) * BATCH_SIZE) := by
            rw [getCurrentBatch]
            have h1 := List.take_append_drop BATCH_SIZE (users.drop (idx * BATCH_SIZE))
            rw [List.drop_drop] at h1
            have harith : idx * BATCH_SIZE + BATCH_SIZE = (idx + 1) * BATCH_SIZE := by ring
            rw [harith] at h1
            exact h1.symm
          rw [hsplit]
          simp [p3, q2]
        · intro r hr
          rcases List.mem_append.mp hr with h | h
          · exact p4 r h
          · exact q3 r h
      · rw [dif_neg hm]
        have hm' : users.length ≤ (idx + 1) * BATCH_SIZE := by
          simp only [hasMoreBatches, decide_eq_true_eq, Bool.not_eq_true] at hm
          omega
        refine ⟨rs1, by simp [p1], ?_, p4⟩
        have hall : getCurrentBatch users idx = users.drop (idx * BATCH_SIZE) := by
          rw [getCurrentBatch]
          refine List.take_of_length_le ?_
          simp only [List.length_drop, BATCH_SIZE] at hm' ⊢
          omega
        rw [p3, hall]

lemma countType_append (es1 es2 : List Event) (t : EventType) :
    countType (es1 ++ es2) t = countType es1 t + countType es2 t :=
  List.countP_append _ _ _

lemma processCurrentBatch_events (env : Env) (users : List User) :
    ∀ (n idx : Nat) (st : SessionState), users.length - idx * BATCH_SIZE ≤ n →
    users.length ≠ 0 → idx < numBatches users →
    ∃ es,
      (processCurrentBatch env users idx st).events =
        st.events ++ es ++
          [{ etype := .SESSION_COMPLETE }, { etype := .ON_COMPLETE_CALLBACK }] ∧
      countType es .SESSION_COMPLETE = 0 ∧
      countType es .ON_COMPLETE_CALLBACK = 0 ∧
      countType es .BATCH_COMPLETE = numBatches users - idx := by
  intro n
  induction n using Nat.strong_induction_on with
  | _ n ih =>
    intro idx st hn h0 hidx
    rw [processCurrentBatch]
    simp only [h0, if_false]
    obtain ⟨rs1, es1, p1, p2, p3, p4, p5⟩ :=
      processItems_spec env (getCurrentBatch users idx)
        (pushEvent st { etype := .BATCH_START })
    have hz1 : countType es1 .SESSION_COMPLETE = 0 :=
      countType_of_itemEvents es1 p5 _ (by simp [itemEvent])
    have hz2 : countType es1 .ON_COMPLETE_CALLBACK = 0 :=
      countType_of_itemEvents es1 p5 _ (by simp [itemEvent])
    have hz3 : countType es1 .BATCH_COMPLETE = 0 :=
      countType_of_itemEvents es1 p5 _ (by simp [itemEvent])
    by_cases hm : hasMoreBatches users idx = true
    · rw [dif_pos hm]
      have hm' : (idx + 1) * BATCH_SIZE < users.length := by
        simpa [hasMoreBatches] using hm
      have hlt : users.length - (idx + 1) * BATCH_SIZE < n := by
        simp only [BATCH_SIZE] at hm' hn ⊢
        omega
      have hidx1 : idx + 1 < numBatches users := by
        simp only [numBatches, BATCH_SIZE] at hidx ⊢
        simp only [BATCH_SIZE] at hm'
        omega
      obtain ⟨es2, q1, q2, q3, q4⟩ := ih (users.length - (idx + 1) * BATCH_SIZE) hlt (idx + 1)
        (pushEvent (processItems env (pushEvent st { etype := .BATCH_START })
          (getCurrentBatch users idx)) { etype := .BATCH_COMPLETE }) le_rfl h0 hidx1
      refine ⟨({ etype := .BATCH_START } :: es1 ++ [{ etype := .BATCH_COMPLETE }]) ++ es2,
        ?_, ?_, ?_, ?_⟩
      · rw [q1]; simp [p2]
      · simp only [countType] at hz1 q2 ⊢
        simp [List.countP_cons, List.countP_append, hz1, q2]
      · simp only [countType] at hz2 q3 ⊢
        simp [List.countP_cons, List.countP_append, hz2, q3]
      · simp only [countType] at hz3 q4 ⊢
        simp [List.countP_cons, List.countP_append, hz3, q4]
        omega
    · rw [dif_neg hm]
      have hm' : users.length ≤ (idx + 1) * BATCH_SIZE := by
        simp only [hasMoreBatches, decide_eq_true_eq, Bool.not_eq_true] at hm
        omega
      have hnb : numBatches users - idx = 1 := by
        simp only [numBatches, BATCH_SIZE] at hidx ⊢
        simp only [BATCH_SIZE] at hm'
        omega
      refine ⟨{ etype := .BATCH_START } :: es1 ++ [{ etype := .BATCH_COMPLETE }],
        ?_, ?_, ?_, ?_⟩
      · simp [p2]
      · simp only [countType] at hz1 ⊢
        simp [List.countP_cons, List.countP_append, hz1]
      · simp only [countType] at hz2 ⊢
        simp [List.countP_cons, List.countP_append, hz2]
      · simp only [countType] at hz3 ⊢
        simp [List.countP_cons, List.countP_append, hz3, hnb]

lemma getCurrentBatch_flatten (users : List User) :
    ∀ (k idx : Nat), users.length ≤ (idx + k) * BATCH_SIZE →
      ((List.range k).map (fun j => getCurrentBatch users (idx + j))).flatten =
        users.drop (idx * BATCH_SIZE) := by
  intro k
  induction k with
  | zero =>
    intro idx h
    simp only [List.range_zero, List.map_nil, List.flatten_nil]
    exact (List.drop_eq_nil_of_le (by simpa using h)).symm
  | succ k ih =>
    intro idx h
    rw [List.range_succ_eq_map]
    simp only [List.map_cons, List.flatten_cons, List.map_map, Nat.add_zero]
    have hcomp : ((fun j => getCurrentBatch users (idx + j)) ∘ Nat.succ) =
        (fun j => getCurrentBatch users ((idx + 1) + j)) := by
      funext j
      simp only [Function.comp_apply]
      congr 1
      omega
    have hside : users.length ≤ ((idx + 1) + k) * BATCH_SIZE := by
      simp only [BATCH_SIZE] at h ⊢
      omega
    rw [hcomp, ih (idx + 1) hside]
    rw [getCurrentBatch]
    have h1 := List.take_append_drop BATCH_SIZE (users.drop (idx * BATCH_SIZE))
    rw [List.drop_drop] at h1
    have harith : idx * BATCH_SIZE + BATCH_SIZE = (idx + 1) * BATCH_SIZE := by ring
    rw [harith] at h1
    exact h1

lemma startBatchProcessing_def (env : Env) (users : List User) (store0 : List EvalRec)
    (c0 : Nat) :
    startBatchProcessing env users store0 c0 =
      processCurrentBatch env users 0
        { store := store0, counter := c0, results := [],
          events := [{ etype := .SESSION_START }], localCache := [], evalCalls := [] } := rfl

lemma processCurrentBatch_single (env : Env) (users : List User) (st : SessionState)
    (h1 : users.length ≠ 0) (h2 : users.length ≤ BATCH_SIZE) :
    processCurrentBatch env users 0 st =
      pushEvent (pushEvent (pushEvent
        (processItems env (pushEvent st { etype := .BATCH_START }) (getCurrentBatch users 0))
        { etype := .BATCH_COMPLETE }) { etype := .SESSION_COMPLETE })
        { etype := .ON_COMPLETE_CALLBACK } := by
  rw [processCurrentBatch]
  rw [if_neg h1]
  have hm : ¬ (hasMoreBatches users 0 = true) := by
    simp only [hasMoreBatches, decide_eq_true_eq, not_lt]
    omega
  rw [dif_neg hm]

/-- C8: at session end the recorded results satisfy the counting
identity: results with status success, updated, skipped and error
together number exactly the items presented, over all chained batches
and in every branch of the per-item loop. -/
theorem session_counts_partition (env : Env) (users : List User) (store0 : List EvalRec)
    (c0 : Nat) :
    countStatus (startBatchProcessing env users store0 c0).results "success" +
      countStatus (startBatchProcessing env users store0 c0).results "updated" +
      countStatus (startBatchProcessing env users store0 c0).results "skipped" +
      countStatus (startBatchProcessing env users store0 c0).results "error" =
      users.length := by
  rw [startBatchProcessing_def]
  obtain ⟨rs, h1, h2, h3⟩ := processCurrentBatch_results env users users.length 0
    { store := store0, counter := c0, results := [],
      events := [{ etype := .SESSION_START }], localCache := [], evalCalls := [] }
    (by omega)
  rw [h1]
  simp only [List.nil_append]
  have hlen : rs.length = users.length := by
    have := congrArg List.length h2
    simpa using this
  rw [← hlen]
  exact countStatus_partition rs (fun r hr => (h3 r hr).1)

/-- C9: the session's per-item processing order is exactly the input
order of the presented items, and the chained batches, taken in
ascending window order, partition the input: the concatenation of
getCurrentBatch over ascending batch indices is the user list itself. -/
theorem session_processing_order (env : Env) (users : List User) (store0 : List EvalRec)
    (c0 : Nat) :
    (startBatchProcessing env users store0 c0).results.map (fun r => r.email) =
      users.map (fun u => u.email) ∧
    ((List.range (numBatches users)).map (fun i => getCurrentBatch users i)).flatten =
      users := by
  constructor
  · rw [startBatchProcessing_def]
    obtain ⟨rs, h1, h2, _⟩ := processCurrentBatch_results env users users.length 0
      { store := store0, counter := c0, results := [],
        events := [{ etype := .SESSION_START }], localCache := [], evalCalls := [] }
      (by omega)
    rw [h1]
    simpa using h2
  · have hside : users.length ≤ (0 + numBatches users) * BATCH_SIZE := by
      simp only [numBatches, BATCH_SIZE]
      omega
    have := getCurrentBatch_flatten users (numBatches users) 0 hside
    simpa using this

/-- C4: on a non-empty input the session's audit trace ends with a
single SESSION_COMPLETE followed by the one invocation of the caller's
completion callback, both occurring exactly once per startSession no
matter how many batches chained, while BATCH_COMPLETE occurs once per
batch and never triggers the callback. -/
theorem session_complete_exactly_once (env : Env) (users : List User)
    (store0 : List EvalRec) (c0 : Nat) (h : users ≠ []) :
    countType (startBatchProcessing env users store0 c0).events .SESSION_COMPLETE = 1 ∧
    countType (startBatchProcessing env users store0 c0).events .ON_COMPLETE_CALLBACK = 1 ∧
    countType (startBatchProcessing env users store0 c0).events .BATCH_COMPLETE =
      numBatches users ∧
    ∃ pre,
      (startBatchProcessing env users store0 c0).events =
        pre ++ [{ etype := .SESSION_COMPLETE }, { etype := .ON_COMPLETE_CALLBACK }] := by
  have h0 : users.length ≠ 0 := by
    intro hh
    exact h (List.length_eq_zero.mp hh)
  have hidx : 0 < numBatches users := by
    simp only [numBatches, BATCH_SIZE]
    omega
  rw [startBatchProcessing_def]
  obtain ⟨es, q1, q2, q3, q4⟩ := processCurrentBatch_events env users users.length 0
    { store := store0, counter := c0, results := [],
      events := [{ etype := .SESSION_START }], localCache := [], evalCalls := [] }
    (by omega) h0 hidx
  refine ⟨?_, ?_, ?_, [{ etype := .SESSION_START }] ++ es, by simpa using q1⟩
  · rw [q1]
    simp only [countType] at q2 ⊢
    simp [List.countP_append, List.countP_cons, q2]
  · rw [q1]
    simp only [countType] at q3 ⊢
    simp [List.countP_append, List.countP_cons, q3]
  · rw [q1]
    simp only [countType] at q4 ⊢
    simp [List.countP_append, List.countP_cons, q4]

/-- C10: starting a session on an empty item list still emits
SESSION_START, but processing returns early: no BATCH_COMPLETE, no
SESSION_COMPLETE, no invocation of the completion callback, and no
results. -/
theorem empty_input_no_completion (env : Env) (store0 : List EvalRec) (c0 : Nat) :
    (startBatchProcessing env [] store0 c0).events = [{ etype := .SESSION_START }] ∧
    (startBatchProcessing env [] store0 c0).results = [] ∧
    countType (startBatchProcessing env [] store0 c0).events .BATCH_COMPLETE = 0 ∧
    countType (startBatchProcessing env [] store0 c0).events .SESSION_COMPLETE = 0 ∧
    countType (startBatchProcessing env [] store0 c0).events .ON_COMPLETE_CALLBACK = 0 := by
  have he : startBatchProcessing env [] store0 c0 =
      { store := store0, counter := c0, results := [],
        events := [{ etype := .SESSION_START }], localCache := [], evalCalls := [] } := by
    rw [startBatchProcessing_def, processCurrentBatch]
    simp
  rw [he]
  refine ⟨rfl, rfl, ?_, ?_, ?_⟩
  all_goals simp [countType]

lemma processItems_length (env : Env) (items : List User) (st : SessionState) :
    (processItems env st items).results.length = st.results.length + items.length := by
  obtain ⟨rs, es, h1, _, h3, _, _⟩ := processItems_spec env items st
  rw [h1]
  have : rs.length = items.length := by
    have := congrArg List.length h3
    simpa using this
  simp [this]

lemma evalAndPersist_evalCalls (env : Env) (st : SessionState) (u : User)
    (chk : CheckResult) :
    (evalAndPersist env st u chk).evalCalls = st.evalCalls ++ [u.email] := by
  unfold evalAndPersist
  rcases evaluateUser env u with m | sc
  · rcases env.insertErrorFail u.email with _ | dm <;> simp
  · by_cases hu : (chk.found && chk.needsUpdate) = true
    · simp only [hu, if_true]
      rcases env.updateFail u.email with _ | dm <;> simp
    · simp only [Bool.not_eq_true] at hu
      simp only [hu, Bool.false_eq_true, if_false]
      rcases env.insertFail u.email with _ | dm <;> simp

/-- C1: an item whose identity has an authoritative success record in
the dedup index is skipped: USER_SKIPPED is emitted, the result carries
the previously stored score with status skipped, and the Evaluator is
never invoked; an item whose most recent record is non-success is not
skipped and is re-evaluated. -/
theorem dedup_skip_on_success (env : Env) (st : SessionState) (u : User) (r : EvalRec)
    (hc : env.checkFail u.email = none)
    (hr : mostRecent st.store u.email = some r) :
    (r.status = "success" →
      (processUser env st u).results = st.results ++
        [{ email := u.email, totalScore := r.score, status := "skipped",
           savedToDatabase := true }] ∧
      (processUser env st u).events = st.events ++
        [{ etype := .USER_PROCESSING_START, email := some u.email },
         { etype := .USER_SKIPPED, email := some u.email, score := some r.score }] ∧
      (processUser env st u).evalCalls = st.evalCalls) ∧
    (r.status ≠ "success" →
      (processUser env st u).evalCalls = st.evalCalls ++ [u.email] ∧
      ∃ res, (processUser env st u).results = st.results ++ [res] ∧
        res.status ≠ "skipped") := by
  have hchk : checkEvaluationExists env st.store u.email =
      ⟨true, some r, none, decide (r.status = "success"),
        !decide (r.status = "success")⟩ := by
    simp [checkEvaluationExists, hc, hr]
  have hCe : (checkEvaluationExists env st.store u.email).error = none := by rw [hchk]
  have hCd : (checkEvaluationExists env st.store u.email).data = some r := by rw [hchk]
  constructor
  · intro hs
    refine ⟨?_, ?_, ?_⟩
    all_goals
      unfold processUser
      simp [pushEvent_store, hCe, hCd, hs]
  · intro hs
    constructor
    · unfold processUser
      simp [pushEvent_store, hCe, hCd, hs, evalAndPersist_evalCalls]
    · obtain ⟨res, es, h1, h2, h3, h4, h5, h6⟩ := evalAndPersist_spec env
        (pushEvent (pushEvent st { etype := .USER_PROCESSING_START, email := some u.email })
          { etype := .USER_UPDATE_START, email := some u.email }) u
        (checkEvaluationExists env st.store u.email)
      refine ⟨res, ?_, h5⟩
      unfold processUser
      simp only [pushEvent_store, hCe, hCd]
      rw [if_neg hs, h1]
      simp

/-- C2: a retry of an identity whose most recent record is non-success
persists a successful re-evaluation by updating that identity's existing
record id in place: the store keeps exactly the same record ids and the
same number of rows for the identity, and the result is reported as
updated. -/
theorem retry_updates_in_place (env : Env) (st : SessionState) (u : User) (r : EvalRec)
    (sc : Int)
    (hc : env.checkFail u.email = none)
    (hr : mostRecent st.store u.email = some r)
    (hs : r.status ≠ "success")
    (he : evaluateUser env u = .ok sc)
    (hu : env.updateFail u.email = none) :
    (processUser env st u).store =
      st.store.map (fun x =>
        if x.id = r.id then
          { x with
              score := sc, status := "success", errMsg := none,
              processedAt := st.counter }
        else x) ∧
    (processUser env st u).store.countP (fun x => decide (x.email = u.email)) =
      st.store.countP (fun x => decide (x.email = u.email)) ∧
    ∃ res, (processUser env st u).results = st.results ++ [res] ∧
      res.status = "updated" ∧ res.totalScore = sc ∧ res.savedToDatabase = true := by
  have hchk : checkEvaluationExists env st.store u.email =
      ⟨true, some r, none, decide (r.status = "success"),
        !decide (r.status = "success")⟩ := by
    simp [checkEvaluationExists, hc, hr]
  have hCe : (checkEvaluationExists env st.store u.email).error = none := by rw [hchk]
  have hCd : (checkEvaluationExists env st.store u.email).data = some r := by rw [hchk]
  have hCb : ((checkEvaluationExists env st.store u.email).found &&
      (checkEvaluationExists env st.store u.email).needsUpdate) = true := by
    rw [hchk]
    simp [hs]
  have hstore : (processUser env st u).store =
      st.store.map (fun x =>
        if x.id = r.id then
          { x with
              score := sc, status := "success", errMsg := none,
              processedAt := st.counter }
        else x) := by
    unfold processUser
    simp only [pushEvent_store, hCe, hCd]
    rw [if_neg hs]
    unfold evalAndPersist
    rw [he]
    simp only [hCb, if_true, hu]
    simp [updateEvaluationResults, hr]
  refine ⟨hstore, ?_, ?_⟩
  · rw [hstore, List.countP_map]
    refine List.countP_congr ?_
    intro x _
    simp only [Function.comp_apply]
    by_cases hx : x.id = r.id
    · simp [hx]
    · simp [hx]
  · refine ⟨{ email := u.email, totalScore := sc, status := "updated",
               savedToDatabase := true, dbError := none }, ?_, rfl, rfl, rfl⟩
    unfold processUser
    simp only [pushEvent_store, hCe, hCd]
    rw [if_neg hs]
    unfold evalAndPersist
    rw [he]
    simp only [hCb, if_true, hu]
    simp

lemma evalAndPersist_error (env : Env) (st : SessionState) (u : User) (chk : CheckResult)
    (m : String)
    (he : evaluateUser env u = .error m)
    (hie : env.insertErrorFail u.email = none) :
    evalAndPersist env st u chk =
      pushResult (pushEvent
        { st with
            store := saveEvaluationError st.store u.email m st.counter,
            counter := st.counter + 1, evalCalls := st.evalCalls ++ [u.email] }
        { etype := .USER_ERROR, email := some u.email, score := some 0,
          dbOk := some true, errMsg := some m })
        { email := u.email, totalScore := 0, status := "error", error := some m,
          savedToDatabase := true, dbError := none } := by
  unfold evalAndPersist
  rw [he, hie]

lemma evalAndPersist_ok_insertFail (env : Env) (st : SessionState) (u : User)
    (chk : CheckResult) (sc : Int) (dm : String)
    (he : evaluateUser env u = .ok sc)
    (hnu : (chk.found && chk.needsUpdate) = false)
    (hif : env.insertFail u.email = some dm) :
    evalAndPersist env st u chk =
      pushResult (pushEvent
        { st with
            localCache := st.localCache ++ [(u.email, sc)],
            evalCalls := st.evalCalls ++ [u.email] }
        { etype := .USER_SUCCESS, email := some u.email, score := some sc,
          dbOk := some false })
        { email := u.email, totalScore := sc, status := "success",
          savedToDatabase := false, dbError := some dm } := by
  unfold evalAndPersist
  rw [he, hnu, hif]
  rfl

lemma evalAndPersist_ok_updateFail (env : Env) (st : SessionState) (u : User)
    (chk : CheckResult) (sc : Int) (dm : String)
    (he : evaluateUser env u = .ok sc)
    (hyu : (chk.found && chk.needsUpdate) = true)
    (huf : env.updateFail u.email = some dm) :
    evalAndPersist env st u chk =
      pushResult (pushEvent
        { st with
            localCache := st.localCache ++ [(u.email, sc)],
            evalCalls := st.evalCalls ++ [u.email] }
        { etype := .USER_UPDATED, email := some u.email, score := some sc,
          dbOk := some false })
        { email := u.email, totalScore := sc, status := "updated",
          savedToDatabase := false, dbError := some dm } := by
  unfold evalAndPersist
  rw [he, hyu, huf]
  rfl

/-- C5: when the Evaluator throws for an item that is not skipped, an
error OutcomeRecord carrying the failure message is inserted, a
USER_ERROR event is emitted, the result records status error with the
captured message, and the remaining items of the batch are still all
processed. -/
theorem evaluator_failure_isolated (env : Env) (st : SessionState) (u : User) (m : String)
    (rest : List User)
    (hns : ∀ r, mostRecent st.store u.email = some r → env.checkFail u.email = none →
      r.status ≠ "success")
    (he : evaluateUser env u = .error m)
    (hie : env.insertErrorFail u.email = none) :
    (processUser env st u).store = st.store ++
      [{ id := st.counter, email := u.email, score := 0, status := "error",
         errMsg := some m, processedAt := st.counter }] ∧
    (∃ res, (processUser env st u).results = st.results ++ [res] ∧
      res.status = "error" ∧ res.error = some m ∧ res.totalScore = 0 ∧
      res.savedToDatabase = true) ∧
    (∃ e ∈ (processUser env st u).events, e.etype = .USER_ERROR ∧
      e.email = some u.email ∧ e.errMsg = some m) ∧
    (processItems env st (u :: rest)).results.length =
      st.results.length + (1 + rest.length) := by
  have hfinish : ∀ st2 : SessionState, st2.store = st.store → st2.counter = st.counter →
      st2.results = st.results → processUser env st u =
        evalAndPersist env st2 u (checkEvaluationExists env st.store u.email) →
      (processUser env st u).store = st.store ++
        [{ id := st.counter, email := u.email, score := 0, status := "error",
           errMsg := some m, processedAt := st.counter }] ∧
      (∃ res, (processUser env st u).results = st.results ++ [res] ∧
        res.status = "error" ∧ res.error = some m ∧ res.totalScore = 0 ∧
        res.savedToDatabase = true) ∧
      (∃ e ∈ (processUser env st u).events, e.etype = .USER_ERROR ∧
        e.email = some u.email ∧ e.errMsg = some m) ∧
      (processItems env st (u :: rest)).results.length =
        st.results.length + (1 + rest.length) := by
    intro st2 hst hco hre hProc
    have hErr := evalAndPersist_error env st2 u
      (checkEvaluationExists env st.store u.email) m he hie
    rw [processItems_cons, processItems_length, hProc, hErr]
    refine ⟨by simp [saveEvaluationError, hst, hco], ?_, ?_, ?_⟩
    · exact ⟨{ email := u.email, totalScore := 0, status := "error", error := some m,
               savedToDatabase := true, dbError := none }, by simp [hre], rfl, rfl, rfl, rfl⟩
    · exact ⟨{ etype := .USER_ERROR, email := some u.email, score := some 0,
               dbOk := some true, errMsg := some m }, by simp, rfl, rfl, rfl⟩
    · simp [hre]
      omega
  rcases hcf : env.checkFail u.email with _ | c
  · rcases hmr : mostRecent st.store u.email with _ | r
    · have hchk : checkEvaluationExists env st.store u.email =
          ⟨false, none, none, false, false⟩ := by
        simp [checkEvaluationExists, hcf, hmr]
      have hCe : (checkEvaluationExists env st.store u.email).error = none := by rw [hchk]
      have hCd : (checkEvaluationExists env st.store u.email).data = none := by rw [hchk]
      refine hfinish
        (pushEvent st { etype := .USER_PROCESSING_START, email := some u.email })
        rfl rfl rfl ?_
      unfold processUser
      simp only [pushEvent_store, hCe, hCd]
    · have hs : r.status ≠ "success" := hns r hmr hcf
      have hchk : checkEvaluationExists env st.store u.email =
          ⟨true, some r, none, decide (r.status = "success"),
            !decide (r.status = "success")⟩ := by
        simp [checkEvaluationExists, hcf, hmr]
      have hCe : (checkEvaluationExists env st.store u.email).error = none := by rw [hchk]
      have hCd : (checkEvaluationExists env st.store u.email).data = some r := by rw [hchk]
      refine hfinish
        (pushEvent (pushEvent st { etype := .USER_PROCESSING_START, email := some u.email })
          { etype := .USER_UPDATE_START, email := some u.email })
        rfl rfl rfl ?_
      unfold processUser
      simp only [pushEvent_store, hCe, hCd]
      rw [if_neg hs]
  · have hchk : checkEvaluationExists env st.store u.email =
        ⟨false, none, some c, false, false⟩ := by
      simp [checkEvaluationExists, hcf]
    have hCe : (checkEvaluationExists env st.store u.email).error = some c := by rw [hchk]
    refine hfinish
      (pushEvent (pushEvent st { etype := .USER_PROCESSING_START, email := some u.email })
        { etype := .DUPLICATE_CHECK_ERROR, email := some u.email, errMsg := some c })
      rfl rfl rfl ?_
    unfold processUser
    simp only [pushEvent_store, hCe]

/-- C6: when evaluation succeeds but the persistence write fails, the
store is unchanged, yet the item's result still carries the evaluation
score with a success or updated status and the persistence outcome as a
separate savedToDatabase=false flag with the database error, and the
emitted outcome event likewise carries the score together with
db_save_successful=false. -/
theorem persistence_failure_flagged (env : Env) (st : SessionState) (u : User) (sc : Int)
    (dm : String)
    (hns : ∀ r, mostRecent st.store u.email = some r → env.checkFail u.email = none →
      r.status ≠ "success")
    (he : evaluateUser env u = .ok sc)
    (hif : env.insertFail u.email = some dm)
    (huf : env.updateFail u.email = some dm) :
    (processUser env st u).store = st.store ∧
    (∃ res, (processUser env st u).results = st.results ++ [res] ∧
      res.totalScore = sc ∧ res.savedToDatabase = false ∧ res.dbError = some dm ∧
      (res.status = "success" ∨ res.status = "updated")) ∧
    (∃ es e, (processUser env st u).events = st.events ++ es ++ [e] ∧
      (e.etype = .USER_SUCCESS ∨ e.etype = .USER_UPDATED) ∧ e.email = some u.email ∧
      e.score = some sc ∧ e.dbOk = some false) := by
  rcases hcf : env.checkFail u.email with _ | c
  · rcases hmr : mostRecent st.store u.email with _ | r
    · have hchk : checkEvaluationExists env st.store u.email =
          ⟨false, none, none, false, false⟩ := by
        simp [checkEvaluationExists, hcf, hmr]
      have hCe : (checkEvaluationExists env st.store u.email).error = none := by rw [hchk]
      have hCd : (checkEvaluationExists env st.store u.email).data = none := by rw [hchk]
      have hnu : ((checkEvaluationExists env st.store u.email).found &&
          (checkEvaluationExists env st.store u.email).needsUpdate) = false := by
        rw [hchk]
        rfl
      have hProc : processUser env st u =
          evalAndPersist env
            (pushEvent st { etype := .USER_PROCESSING_START, email := some u.email }) u
            (checkEvaluationExists env st.store u.email) := by
        unfold processUser
        simp only [pushEvent_store, hCe, hCd]
      rw [hProc, evalAndPersist_ok_insertFail env _ u _ sc dm he hnu hif]
      refine ⟨by simp, ?_, ?_⟩
      · exact ⟨{ email := u.email, totalScore := sc, status := "success",
                 savedToDatabase := false, dbError := some dm },
          by simp, rfl, rfl, rfl, Or.inl rfl⟩
      · exact ⟨[{ etype := .USER_PROCESSING_START, email := some u.email }],
          { etype := .USER_SUCCESS, email := some u.email, score := some sc,
            dbOk := some false }, by simp, Or.inl rfl, rfl, rfl, rfl⟩
    · have hs : r.status ≠ "success" := hns r hmr hcf
      have hchk : checkEvaluationExists env st.store u.email =
          ⟨true, some r, none, decide (r.status = "success"),
            !decide (r.status = "success")⟩ := by
        simp [checkEvaluationExists, hcf, hmr]
      have hCe : (checkEvaluationExists env st.store u.email).error = none := by rw [hchk]
      have hCd : (checkEvaluationExists env st.store u.email).data = some r := by rw [hchk]
      have hyu : ((checkEvaluationExists env st.store u.email).found &&
          (checkEvaluationExists env st.store u.email).needsUpdate) = true := by
        rw [hchk]
        simp [hs]
      have hProc : processUser env st u =
          evalAndPersist env
            (pushEvent (pushEvent st
              { etype := .USER_PROCESSING_START, email := some u.email })
              { etype := .USER_UPDATE_START, email := some u.email }) u
            (checkEvaluationExists env st.store u.email) := by
        unfold processUser
        simp only [pushEvent_store, hCe, hCd]
        rw [if_neg hs]
      rw [hProc, evalAndPersist_ok_updateFail env _ u _ sc dm he hyu huf]
      refine ⟨by simp, ?_, ?_⟩
      · exact ⟨{ email := u.email, totalScore := sc, status := "updated",
                 savedToDatabase := false, dbError := some dm },
          by simp, rfl, rfl, rfl, Or.inr rfl⟩
      · exact ⟨[{ etype := .USER_PROCESSING_START, email := some u.email },
               { etype := .USER_UPDATE_START, email := some u.email }],
          { etype := .USER_UPDATED, email := some u.email, score := some sc,
            dbOk := some false }, by simp, Or.inr rfl, rfl, rfl, rfl⟩
  · have hchk : checkEvaluationExists env st.store u.email =
        ⟨false, none, some c, false, false⟩ := by
      simp [checkEvaluationExists, hcf]
    have hCe : (checkEvaluationExists env st.store u.email).error = some c := by rw [hchk]
    have hnu : ((checkEvaluationExists env st.store u.email).found &&
        (checkEvaluationExists env st.store u.email).needsUpdate) = false := by
      rw [hchk]
      rfl
    have hProc : processUser env st u =
        evalAndPersist env
          (pushEvent (pushEvent st { etype := .USER_PROCESSING_START, email := some u.email })
            { etype := .DUPLICATE_CHECK_ERROR, email := some u.email, errMsg := some c }) u
          (checkEvaluationExists env st.store u.email) := by
      unfold processUser
      simp only [pushEvent_store, hCe]
    rw [hProc, evalAndPersist_ok_insertFail env _ u _ sc dm he hnu hif]
    refine ⟨by simp, ?_, ?_⟩
    · exact ⟨{ email := u.email, totalScore := sc, status := "success",
               savedToDatabase := false, dbError := some dm },
        by simp, rfl, rfl, rfl, Or.inl rfl⟩
    · exact ⟨[{ etype := .USER_PROCESSING_START, email := some u.email },
             { etype := .DUPLICATE_CHECK_ERROR, email := some u.email, errMsg := some c }],
        { etype := .USER_SUCCESS, email := some u.email, score := some sc,
          dbOk := some false }, by simp, Or.inl rfl, rfl, rfl, rfl⟩

/-- C3 counterexample: a parsed response whose category scores sum to
100 while the reported aggregate is 0 exceeds the tolerance, yet the
kept aggregate is the 70-point cap, not the category sum — refuting the
claim that the kept aggregate always equals the sum. -/
theorem reconciliation_cap_counterexample :
    ((0 : Int) - sumScores [10, 10, 10, 10, 15, 15, 20, 10]).natAbs > 5 ∧
    sumScores [10, 10, 10, 10, 15, 15, 20, 10] = 100 ∧
    reconciledTotalScore 0 [10, 10, 10, 10, 15, 15, 20, 10] = 70 ∧
    reconciledTotalScore 0 [10, 10, 10, 10, 15, 15, 20, 10] ≠
      sumScores [10, 10, 10, 10, 15, 15, 20, 10] := by
  refine ⟨by decide, by decide, by decide, by decide⟩

/-- C3 amended: when the reported aggregate differs from the category
sum by more than the tolerance of 5, the kept aggregate equals the
category sum clamped to the 70-point maximum (so it equals the sum
itself whenever the sum is at most 70). -/
theorem reconciliation_uses_sum_capped (reported : Int) (stageScores : List Int)
    (h : (reported - sumScores stageScores).natAbs > 5) :
    reconciledTotalScore reported stageScores = min (sumScores stageScores) 70 := by
  simp only [reconciledTotalScore]
  rw [if_pos h]
  omega

theorem reconciliation_uses_sum_capped_witness :
    ((0 : Int) - sumScores [10]).natAbs > 5 ∧
    reconciledTotalScore 0 [10] = min (sumScores [10]) 70 :=
  ⟨by decide, reconciliation_uses_sum_capped 0 [10] (by decide)⟩

/-- An environment with the Gemini credential absent: every Evaluator
call throws the missing-key error. -/
def cNoKeyEnv : Env :=
  { apiKey := none, geminiEval := fun _ => .ok 0, checkFail := fun _ => none,
    insertFail := fun _ => none, updateFail := fun _ => none,
    insertErrorFail := fun _ => none }

/-- A concrete work item used to evaluate the pipeline. -/
def cUser : User := ⟨"a@example.com"⟩

/-- C7 counterexample: with the credential missing, running a session
over one fresh item does not abort before processing — the item is
processed, an error OutcomeRecord carrying the credential message is
persisted, USER_ERROR is emitted, and the session even completes —
refuting the claim that no per-item processing, persistence or per-item
error recording happens. -/
theorem missing_key_not_fatal_counterexample :
    (startBatchProcessing cNoKeyEnv [cUser] [] 0).results.map (fun r => r.status) =
      ["error"] ∧
    (startBatchProcessing cNoKeyEnv [cUser] [] 0).results.map (fun r => r.error) =
      [some missingKeyMsg] ∧
    (startBatchProcessing cNoKeyEnv [cUser] [] 0).store.map (fun r => r.status) =
      ["error"] ∧
    countType (startBatchProcessing cNoKeyEnv [cUser] [] 0).events .USER_ERROR = 1 ∧
    countType (startBatchProcessing cNoKeyEnv [cUser] [] 0).events .SESSION_COMPLETE =
      1 := by
  have hsess := processCurrentBatch_single cNoKeyEnv [cUser]
    { store := [], counter := 0, results := [], events := [{ etype := .SESSION_START }],
      localCache := [], evalCalls := [] } (by decide) (by decide)
  rw [startBatchProcessing_def, hsess]
  refine ⟨by decide, by decide, by decide, by decide, by decide⟩

/-- C7 amended: a missing Evaluator credential is not a fatal
precondition checked before processing; it is detected inside each
item's Evaluator call and handled as an ordinary per-item failure:
every non-skipped item's result has status error carrying the
credential message, and the session still runs to its single
SESSION_COMPLETE instead of aborting. -/
theorem missing_key_per_item_errors (env : Env) (users : List User)
    (store0 : List EvalRec) (c0 : Nat)
    (hk : env.apiKey = none) (hu : users ≠ []) :
    (∀ res ∈ (startBatchProcessing env users store0 c0).results,
      res.status = "skipped" ∨
        (res.status = "error" ∧ res.error = some missingKeyMsg)) ∧
    countType (startBatchProcessing env users store0 c0).events .SESSION_COMPLETE =
      1 := by
  constructor
  · rw [startBatchProcessing_def]
    obtain ⟨rs, h1, h2, h3⟩ := processCurrentBatch_results env users users.length 0
      { store := store0, counter := c0, results := [],
        events := [{ etype := .SESSION_START }], localCache := [], evalCalls := [] }
      (by omega)
    rw [h1]
    simp only [List.nil_append]
    intro res hres
    exact (h3 res hres).2 hk
  · have h0 : users.length ≠ 0 := by
      intro hh
      exact hu (List.length_eq_zero.mp hh)
    have hidx : 0 < numBatches users := by
      simp only [numBatches, BATCH_SIZE]
      omega
    rw [startBatchProcessing_def]
    obtain ⟨es, q1, q2, q3, q4⟩ := processCurrentBatch_events env users users.length 0
      { store := store0, counter := c0, results := [],
        events := [{ etype := .SESSION_START }], localCache := [], evalCalls := [] }
      (by omega) h0 hidx
    rw [q1]
    simp only [countType] at q2 ⊢
    simp [List.countP_append, List.countP_cons, q2]

theorem missing_key_per_item_errors_witness :
    cNoKeyEnv.apiKey = none ∧
    countType (startBatchProcessing cNoKeyEnv [cUser] [] 0).events .SESSION_COMPLETE =
      1 :=
  ⟨rfl, (missing_key_per_item_errors cNoKeyEnv [cUser] [] 0 rfl (by decide)).2⟩

/-- A fault-free environment whose Evaluator reports score 42. -/
def wEnv : Env :=
  { apiKey := some "key", geminiEval := fun _ => .ok 42, checkFail := fun _ => none,
    insertFail := fun _ => none, updateFail := fun _ => none,
    insertErrorFail := fun _ => none }

/-- An environment whose Evaluator throws. -/
def wEnvEvalFail : Env := { wEnv with geminiEval := fun _ => .error "boom" }

/-- An environment whose persistence writes fail. -/
def wEnvDbFail : Env :=
  { wEnv with insertFail := fun _ => some "db down", updateFail := fun _ => some "db down" }

/-- A concrete work item for the witnesses. -/
def wUser : User := ⟨"w@example.com"⟩

/-- An authoritative success record for wUser. -/
def wSuccessRec : EvalRec :=
  { id := 0, email := "w@example.com", score := 50, status := "success", errMsg := none,
    processedAt := 0 }

/-- A prior error record for wUser. -/
def wErrorRec : EvalRec :=
  { id := 0, email := "w@example.com", score := 0, status := "error",
    errMsg := some "old", processedAt := 0 }

/-- A session state over a given store, mid-session. -/
def wState (store : List EvalRec) : SessionState :=
  { store := store, counter := 7, results := [], events := [], localCache := [],
    evalCalls := [] }

theorem dedup_skip_on_success_witness :
    wEnv.checkFail wUser.email = none ∧
    mostRecent (wState [wSuccessRec]).store wUser.email = some wSuccessRec ∧
    wSuccessRec.status = "success" ∧
    (processUser wEnv (wState [wSuccessRec]) wUser).evalCalls =
      (wState [wSuccessRec]).evalCalls :=
  ⟨rfl, by decide, rfl,
    ((dedup_skip_on_success wEnv (wState [wSuccessRec]) wUser wSuccessRec rfl
      (by decide)).1 rfl).2.2⟩

theorem retry_updates_in_place_witness :
    mostRecent (wState [wErrorRec]).store wUser.email = some wErrorRec ∧
    wErrorRec.status ≠ "success" ∧
    evaluateUser wEnv wUser = .ok 42 ∧
    (processUser wEnv (wState [wErrorRec]) wUser).store =
      (wState [wErrorRec]).store.map (fun x =>
        if x.id = wErrorRec.id then
          { x with
              score := 42, status := "success", errMsg := none,
              processedAt := (wState [wErrorRec]).counter }
        else x) :=
  ⟨by decide, by decide, rfl,
    (retry_updates_in_place wEnv (wState [wErrorRec]) wUser wErrorRec 42 rfl (by decide)
      (by decide) rfl rfl).1⟩

theorem evaluator_failure_isolated_witness :
    evaluateUser wEnvEvalFail wUser = .error "boom" ∧
    (processUser wEnvEvalFail (wState []) wUser).store = (wState []).store ++
      [{ id := (wState []).counter, email := wUser.email, score := 0, status := "error",
         errMsg := some "boom", processedAt := (wState []).counter }] ∧
    (processItems wEnvEvalFail (wState []) [wUser]).results.length =
      (wState []).results.length + (1 + ([] : List User).length) :=
  ⟨rfl,
    (evaluator_failure_isolated wEnvEvalFail (wState []) wUser "boom" []
      (fun r hmr _ => by simp [mostRecent, wState] at hmr) rfl rfl).1,
    (evaluator_failure_isolated wEnvEvalFail (wState []) wUser "boom" []
      (fun r hmr _ => by simp [mostRecent, wState] at hmr) rfl rfl).2.2.2⟩

theorem persistence_failure_flagged_witness :
    evaluateUser wEnvDbFail wUser = .ok 42 ∧
    wEnvDbFail.insertFail wUser.email = some "db down" ∧
    (processUser wEnvDbFail (wState []) wUser).store = (wState []).store :=
  ⟨rfl, rfl,
    (persistence_failure_flagged wEnvDbFail (wState []) wUser 42 "db down"
      (fun r hmr _ => by simp [mostRecent, wState] at hmr) rfl rfl rfl).1⟩

theorem session_complete_exactly_once_witness :
    ([wUser] : List User) ≠ [] ∧
    countType (startBatchProcessing wEnv [wUser] [] 0).events .SESSION_COMPLETE = 1 ∧
    countType (startBatchProcessing wEnv [wUser] [] 0).events .ON_COMPLETE_CALLBACK =
      1 :=
  ⟨by decide,
    (session_complete_exactly_once wEnv [wUser] [] 0 (by decide)).1,
    (session_complete_exactly_once wEnv [wUser] [] 0 (by decide)).2.1⟩

end GmpDemo
